import Mathlib

/-!
# A shallow embedding of the cardsharpner hand-history replay engine

This file embeds the parser and replay-state reconstructor of
src/hand_replayer.py (class HandReplayer) as executable Lean definitions and
proves properties of them.  Conventions of the embedding:

* Monetary amounts are Python floats in the source, always produced by
  float() applied to strings matched by the character class of digits and
  dots; they are modelled as exact rationals.
* Python regular-expression searches are modelled by specialised scanning
  functions with the same leftmost-match semantics; every pattern of the
  source has its char-by-char equivalent here (none of the patterns needs
  general backtracking: after each greedy class the next pattern character
  is outside the class, so the greedy run is forced, except where noted).
* Python exceptions (ValueError from float(), ValueError from
  datetime.strptime, NameError from an unbound local, KeyError / IndexError
  in the replay reconstructor) are modelled by Except String; the
  try/except of parse_hand_for_replay maps an error to none.
* datetime.now(), the fallback timestamp, is impure; the timestamp field is
  modelled as Option DateTime with none standing for the wall-clock
  fallback.
-/

namespace Cardsharpner

/-- A line of text, as a list of characters. -/
abbrev Line := List Char

/-- The six characters Python str.strip removes. -/
def isPyWs (c : Char) : Bool :=
  c = ' ' || c = '\t' || c = '\n' || c = '\r' || c = '\x0b' || c = '\x0c'

/-- Python str.strip(): drop whitespace from both ends. -/
def pyStrip (l : Line) : Line :=
  ((l.dropWhile isPyWs).reverse.dropWhile isPyWs).reverse

/-- Python str.lower() (ASCII, which is all the source's patterns use). -/
def pyLower (l : Line) : Line := l.map Char.toLower

/-- Is the first list a contiguous substring of the second? -/
def isSubList (pat : List Char) : List Char → Bool
  | [] => pat.isPrefixOf []
  | c :: cs => pat.isPrefixOf (c :: cs) || isSubList pat cs

/-- Python substring containment: pat in l. -/
def containsStr (l : Line) (pat : String) : Bool :=
  isSubList pat.toList l

/-- Python str.startswith. -/
def startsWithStr (l : Line) (pat : String) : Bool :=
  pat.toList.isPrefixOf l

/-- Python membership of a single character. -/
def containsChar (l : Line) (c : Char) : Bool := l.contains c

/-- Auxiliary accumulator pass for splitting on a separator character. -/
def splitOnCharAux (sep : Char) : Line → Line → List Line
  | acc, [] => [acc.reverse]
  | acc, c :: cs =>
    if c = sep then acc.reverse :: splitOnCharAux sep [] cs
    else splitOnCharAux sep (c :: acc) cs

/-- Python text.split) on a single separator, keeping empty pieces
(hand_text.split with the newline separator in the source). -/
def splitOnChar (sep : Char) (l : Line) : List Line :=
  splitOnCharAux sep [] l

/-- The line list of a hand text: split on the newline character. -/
def splitLines (l : Line) : List Line := splitOnChar '\n' l

/-- Auxiliary accumulator pass for whitespace splitting. -/
def splitWsAux : Line → Line → List Line
  | acc, [] => if acc.isEmpty then [] else [acc.reverse]
  | acc, c :: cs =>
    if isPyWs c then
      (if acc.isEmpty then splitWsAux [] cs else acc.reverse :: splitWsAux [] cs)
    else splitWsAux (c :: acc) cs

/-- Python str.split() with no argument: split on whitespace runs,
producing no empty pieces. -/
def splitWs (l : Line) : List Line := splitWsAux [] l

/-- Python line.split(the colon, 1): the part before the first colon and the
part after it.  Only used under a guard that the colon occurs. -/
def splitFirstColon (l : Line) : Line × Line :=
  (l.takeWhile (fun c => c ≠ ':'), (l.dropWhile (fun c => c ≠ ':')).drop 1)

/-- Numeric value of a digit string (int() of the source on digit-only
captures, which cannot fail). -/
def digitsToNat (l : Line) : Nat :=
  l.foldl (fun n c => n * 10 + (c.toNat - 48)) 0

/-- Python float() applied to a capture of the digits-and-dot character
class: defined exactly when there is at most one dot and at least one
digit; otherwise float() raises ValueError (modelled as none). -/
def pyFloat (cs : Line) : Option ℚ :=
  match cs.dropWhile Char.isDigit with
  | [] =>
    if (cs.takeWhile Char.isDigit).isEmpty then none
    else some ((digitsToNat (cs.takeWhile Char.isDigit) : ℚ))
  | '.' :: frac =>
    if frac.all Char.isDigit ∧ (¬ (cs.takeWhile Char.isDigit).isEmpty ∨ ¬ frac.isEmpty) then
      some ((digitsToNat (cs.takeWhile Char.isDigit) : ℚ)
        + (digitsToNat frac : ℚ) / ((10 : ℚ) ^ frac.length))
    else none
  | _ => none

/-- Python integer modulus (sign of the divisor); for a positive divisor the
result is in [0, n) whatever the convention of the Lean % on Int. -/
def pyIntMod (a n : Int) : Int := ((a % n) + n) % n

/-- Python format string rendering a float to two decimals, on the exact
rational abstraction of the amounts (used only in descriptions). -/
def fmt2 (q : ℚ) : String :=
  let c : ℤ := Int.floor (q * 100 + 1 / 2)
  let n := c.toNat
  let frac := n % 100
  toString (n / 100) ++ "." ++ (if frac < 10 then "0" ++ toString frac else toString frac)

/-- The single-quote character (written by code point to keep the source
free of quote literals). -/
def squote : Char := Char.ofNat 39

/-- Leftmost-match search: try the matcher at every start position in order,
exactly like re.search. -/
def scanFirst (f : Line → Option α) : Line → Option α
  | [] => f []
  | c :: cs =>
    match f (c :: cs) with
    | some a => some a
    | none => scanFirst f cs

/-- Consume a literal (case-sensitive); give back the rest. -/
def dropLit (lit : List Char) (cs : Line) : Option Line :=
  if lit.isPrefixOf cs then some (cs.drop lit.length) else none

/-- Consume a literal comparing case-insensitively (for the re.IGNORECASE
patterns of _extract_board_cards); the input characters are consumed
unchanged. -/
def dropLitCI : List Char → Line → Option Line
  | [], cs => some cs
  | _ :: _, [] => none
  | l :: ls, c :: cs =>
    if l.toLower = c.toLower then dropLitCI ls cs else none

/-- Consume a nonempty greedy run of characters satisfying p (a one-or-more
class); returns the run and the rest. -/
def take1Class (p : Char → Bool) (cs : Line) : Option (Line × Line) :=
  let run := cs.takeWhile p
  if run.isEmpty then none else some (run, cs.dropWhile p)

/-- Consume a possibly-empty greedy run (a zero-or-more class). -/
def take0Class (p : Char → Bool) (cs : Line) : Line × Line :=
  (cs.takeWhile p, cs.dropWhile p)

/-- The digits-and-dot money character class of the source's patterns. -/
def isMoneyChar (c : Char) : Bool := c.isDigit || c = '.'

/-- The hand-id character class [A-Z0-9-]. -/
def isHandIdChar (c : Char) : Bool := c.isUpper || c.isDigit || c = '-'

/-- Matcher at one position for the pattern Poker Hand followed by the id
capture (the class run after the hash sign). -/
def matchHandIdAt (cs : Line) : Option Line := do
  let r ← dropLit "Poker Hand #".toList cs
  let (run, _) ← take1Class isHandIdChar r
  pure run

/-- Take exactly n digits; give back the rest. -/
def exactDigits : Nat → Line → Option (Line × Line)
  | 0, cs => some ([], cs)
  | _ + 1, [] => none
  | n + 1, c :: cs =>
    if c.isDigit then
      match exactDigits n cs with
      | some (run, rest) => some (c :: run, rest)
      | none => none
    else none

/-- Matcher at one position for the fixed timestamp shape of four digit
groups separated by slashes, a space and two colon groups; returns the six
captured digit groups. -/
def matchTimestampAt (cs : Line) : Option (Line × Line × Line × Line × Line × Line) := do
  let (y, r1) ← exactDigits 4 cs
  let r2 ← dropLit ['/'] r1
  let (mo, r3) ← exactDigits 2 r2
  let r4 ← dropLit ['/'] r3
  let (d, r5) ← exactDigits 2 r4
  let r6 ← dropLit [' '] r5
  let (h, r7) ← exactDigits 2 r6
  let r8 ← dropLit [':'] r7
  let (mi, r9) ← exactDigits 2 r8
  let r10 ← dropLit [':'] r9
  let (s, _) ← exactDigits 2 r10
  pure (y, mo, d, h, mi, s)

/-- Matcher at one position for the table-name pattern: the word Table, a
space, a quote, a nonempty run of non-quote characters, a quote. -/
def matchTableAt (cs : Line) : Option Line := do
  let r ← dropLit ("Table ".toList ++ [squote]) cs
  let (run, rest) ← take1Class (fun c => c ≠ squote) r
  let _ ← dropLit [squote] rest
  pure run

/-- Matcher at one position for the stakes pattern: an opening parenthesis,
then the captured dollar-slash-dollar amount pair, then a closing
parenthesis.  The capture includes both dollar signs and the slash. -/
def matchStakesAt (cs : Line) : Option Line := do
  let r ← dropLit "($".toList cs
  let (d1, r1) ← take1Class isMoneyChar r
  let r2 ← dropLit "/$".toList r1
  let (d2, r3) ← take1Class isMoneyChar r2
  let _ ← dropLit [')'] r3
  pure ('$' :: d1 ++ '/' :: '$' :: d2)

/-- Matcher at one position for the button pattern Seat hash-number is the
button; returns the seat digits. -/
def matchButtonAt (cs : Line) : Option Line := do
  let r ← dropLit "Seat #".toList cs
  let (run, rest) ← take1Class Char.isDigit r
  let _ ← dropLit " is the button".toList rest
  pure run

/-- Matcher at one position for the roster seat line pattern: Seat, digits,
colon-space, a nonempty name run of non-parenthesis characters, space,
open-parenthesis, dollar, the stack amount, then the literal in-chips tail.
The greedy non-parenthesis class followed by the space-parenthesis literal
forces the name to be everything before the first open parenthesis with its
final space removed (that final character must be a space). -/
def matchSeatLineAt (cs : Line) : Option (Line × Line × Line) := do
  let r ← dropLit "Seat ".toList cs
  let (seatDigits, r1) ← take1Class Char.isDigit r
  let r2 ← dropLit ": ".toList r1
  let (region, r3) ← take1Class (fun c => c ≠ '(') r2
  match region.reverse with
  | [] => none
  | last :: revName =>
    if last = ' ' ∧ ¬ revName.isEmpty then do
      let r4 ← dropLit ['(', '$'] r3
      let (stack, r5) ← take1Class isMoneyChar r4
      let _ ← dropLit " in chips)".toList r5
      pure (seatDigits, revName.reverse, stack)
    else none

/-- Matcher at one position for the dealt-cards pattern: Dealt to, a
nonempty greedy run of non-bracket characters (the raw name, later
stripped), an opening bracket, a possibly-empty run of non-closing-bracket
characters (the cards), a closing bracket. -/
def matchDealtAt (cs : Line) : Option (Line × Line) := do
  let r ← dropLit "Dealt to ".toList cs
  let (nameRaw, r1) ← take1Class (fun c => c ≠ '[') r
  let r2 ← dropLit ['['] r1
  let (cards, r3) := take0Class (fun c => c ≠ ']') r2
  let _ ← dropLit [']'] r3
  pure (nameRaw, cards)

/-- Matcher at one position for a dollar amount: dollar sign then the money
class run. -/
def matchMoneyAt (cs : Line) : Option Line := do
  let r ← dropLit ['$'] cs
  let (run, _) ← take1Class isMoneyChar r
  pure run

/-- Matcher at one position for calls-dollar-amount. -/
def matchCallsAt (cs : Line) : Option Line := do
  let r ← dropLit "calls $".toList cs
  let (run, _) ← take1Class isMoneyChar r
  pure run

/-- Matcher at one position for raises-dollar-amount-to-dollar-amount;
returns both captures. -/
def matchRaiseAt (cs : Line) : Option (Line × Line) := do
  let r ← dropLit "raises $".toList cs
  let (d1, r1) ← take1Class isMoneyChar r
  let r2 ← dropLit " to $".toList r1
  let (d2, _) ← take1Class isMoneyChar r2
  pure (d1, d2)

/-- Matcher at one position for bets-dollar-amount. -/
def matchBetsAt (cs : Line) : Option Line := do
  let r ← dropLit "bets $".toList cs
  let (run, _) ← take1Class isMoneyChar r
  pure run

/-- Matcher at one position for collected-dollar-amount. -/
def matchCollectedAt (cs : Line) : Option Line := do
  let r ← dropLit "collected $".toList cs
  let (run, _) ← take1Class isMoneyChar r
  pure run

/-- Matcher at one position for the uncalled-bet pattern: the literal
Uncalled bet, a dollar amount, the literal returned to, then the nonempty
greedy run of non-dollar characters (the raw player name). -/
def matchUncalledAt (cs : Line) : Option (Line × Line) := do
  let r ← dropLit "Uncalled bet $".toList cs
  let (amt, r1) ← take1Class isMoneyChar r
  let r2 ← dropLit " returned to ".toList r1
  let (nameRaw, _) ← take1Class (fun c => c ≠ '$') r2
  pure (amt, nameRaw)

/-- Matcher at one position for a bracket group: an opening bracket, a
nonempty run of non-closing-bracket characters, a closing bracket. -/
def matchBracket1At (cs : Line) : Option Line := do
  let r ← dropLit ['['] cs
  let (run, r1) ← take1Class (fun c => c ≠ ']') r
  let _ ← dropLit [']'] r1
  pure run

/-- Matcher at one position for two consecutive bracket groups separated by
optional whitespace, capturing the second (the turn and river patterns of
_extract_all_actions). -/
def matchBracket2At (cs : Line) : Option Line := do
  let r ← dropLit ['['] cs
  let (_, r1) ← take1Class (fun c => c ≠ ']') r
  let r2 ← dropLit [']'] r1
  let (_, r3) := take0Class isPyWs r2
  let r4 ← dropLit ['['] r3
  let (cap, r5) ← take1Class (fun c => c ≠ ']') r4
  let _ ← dropLit [']'] r5
  pure cap

/-- The shared tail of the three board-section patterns: the
case-insensitive street word, space, three stars, optional whitespace and a
bracket capture.  first one bracket group (flop) is handled by the caller
passing zero for preceding groups and one otherwise. -/
def matchBoardTail (word : String) (nGroups : Nat) (cs : Line) : Option Line := do
  let r ← dropLitCI (word ++ " ***").toList cs
  let (_, r1) := take0Class isPyWs r
  match nGroups with
  | 0 => do
    let r2 ← dropLit ['['] r1
    let (cap, r3) ← take1Class (fun c => c ≠ ']') r2
    let _ ← dropLit [']'] r3
    pure cap
  | _ + 1 => do
    let r2 ← dropLit ['['] r1
    let (_, r3) ← take1Class (fun c => c ≠ ']') r2
    let r4 ← dropLit [']'] r3
    let (_, r5) := take0Class isPyWs r4
    let r6 ← dropLit ['['] r5
    let (cap, r7) ← take1Class (fun c => c ≠ ']') r6
    let _ ← dropLit [']'] r7
    pure cap

/-- Matcher at one position for the three-stars-space, optional FIRST, then
the street word pattern of _extract_board_cards (re.IGNORECASE; the
optional group is tried present-first as the regex engine does). -/
def matchBoardAt (word : String) (nGroups : Nat) (cs : Line) : Option Line := do
  let r ← dropLitCI "*** ".toList cs
  match dropLitCI "FIRST ".toList r with
  | some r2 =>
    match matchBoardTail word nGroups r2 with
    | some cap => pure cap
    | none => matchBoardTail word nGroups r
  | none => matchBoardTail word nGroups r

/-! ## Data model (the dataclasses of hand_replayer.py) -/

/-- datetime values produced by datetime.strptime in _extract_timestamp. -/
structure DateTime where
  year : Nat
  month : Nat
  day : Nat
  hour : Nat
  minute : Nat
  second : Nat
deriving Repr, DecidableEq

/-- Gregorian leap-year test, as datetime validates day-of-month. -/
def isLeapYear (y : Nat) : Bool :=
  (y % 4 = 0 && y % 100 ≠ 0) || y % 400 = 0

/-- Days in a month, as datetime validates. -/
def daysInMonth (y m : Nat) : Nat :=
  if m = 2 then (if isLeapYear y then 29 else 28)
  else if m = 4 || m = 6 || m = 9 || m = 11 then 30 else 31

/-- datetime.strptime validation: none models the ValueError raised on an
out-of-range component. -/
def mkDatetime (y mo d h mi s : Nat) : Option DateTime :=
  if 1 ≤ y ∧ y ≤ 9999 ∧ 1 ≤ mo ∧ mo ≤ 12 ∧ 1 ≤ d ∧ d ≤ daysInMonth y mo
      ∧ h ≤ 23 ∧ mi ≤ 59 ∧ s ≤ 59 then
    some ⟨y, mo, d, h, mi, s⟩
  else none

/-- PlayerState of hand_replayer.py: a player's state at a point in the
hand. -/
structure PlayerState where
  name : String
  seat : Nat
  stack : ℚ
  position : String
  hole_cards : List String := []
  is_hero : Bool := false
  is_active : Bool := true
  is_all_in : Bool := false
  current_bet : ℚ := 0
  total_invested : ℚ := 0
  cards_visible : Bool := false
deriving Repr, DecidableEq

/-- ActionStep of hand_replayer.py: a single action in the hand. -/
structure ActionStep where
  action_number : Nat
  street : String
  player : String
  seat : Nat
  action_type : String
  amount : ℚ
  total_bet : ℚ
  pot_before : ℚ
  pot_after : ℚ
  description : String
  board_cards : List String := []
deriving Repr, DecidableEq

/-- HandReplay of hand_replayer.py: complete hand replay data.  The
timestamp is none when the source would have stored datetime.now(). -/
structure HandReplay where
  hand_id : String
  timestamp : Option DateTime
  table_name : String
  stakes : String
  button_seat : Nat
  players : List PlayerState
  actions : List ActionStep
  final_pot : ℚ
  rake : ℚ
  jackpot : ℚ
  winner : String := ""
  winning_hand : String := ""
  board_cards : List String := []
  flop_cards : List String := []
  turn_card : String := ""
  river_card : String := ""
deriving Repr, DecidableEq

/-! ## Header extraction (HandReplayer extractor methods) -/

/-- The 6-max position label list of HandReplayer. -/
def positions_6max : List String :=
  ["Button", "Small Blind", "Big Blind", "UTG", "Hijack", "Cutoff"]

/-- The 9-max position label list of HandReplayer. -/
def positions_9max : List String :=
  ["Button", "SB", "BB", "UTG", "UTG+1", "MP", "MP+1", "HJ", "CO"]

/-- HandReplayer._calculate_position: select the label list by num_players,
index by the seat offset modulo num_players, clamped to the last label. -/
def calculate_position (seat button_seat num_players : Nat) : String :=
  let positions := if num_players ≤ 6 then positions_6max else positions_9max
  let offset := (pyIntMod ((seat : Int) - (button_seat : Int)) (num_players : Int)).toNat
  positions.getD (min offset (positions.length - 1)) ""

/-- HandReplayer._extract_hand_id: first match of the hand-id pattern, else
the empty string. -/
def extract_hand_id (cs : Line) : String :=
  match scanFirst matchHandIdAt cs with
  | some run => String.mk run
  | none => ""

/-- HandReplayer._extract_timestamp: first match of the timestamp shape is
fed to strptime (error models its ValueError); with no match the source
stores datetime.now(), modelled as ok none. -/
def extract_timestamp (cs : Line) : Except String (Option DateTime) :=
  match scanFirst matchTimestampAt cs with
  | some (y, mo, d, h, mi, s) =>
    match mkDatetime (digitsToNat y) (digitsToNat mo) (digitsToNat d)
        (digitsToNat h) (digitsToNat mi) (digitsToNat s) with
    | some dt => .ok (some dt)
    | none => .error "ValueError: time data does not match format"
  | none => .ok none

/-- HandReplayer._extract_table_name. -/
def extract_table_name (cs : Line) : String :=
  match scanFirst matchTableAt cs with
  | some run => String.mk run
  | none => ""

/-- HandReplayer._extract_stakes. -/
def extract_stakes (cs : Line) : String :=
  match scanFirst matchStakesAt cs with
  | some run => String.mk run
  | none => ""

/-- HandReplayer._extract_button_seat: the seat number of the button
pattern, defaulting to 1. -/
def extract_button_seat (cs : Line) : Nat :=
  match scanFirst matchButtonAt cs with
  | some run => digitsToNat run
  | none => 1

/-! ## Roster building (HandReplayer._extract_players) -/

/-- First pass of _extract_players: scan the lines for seat lines and
append a PlayerState per match; the position is computed with the running
count of players found so far plus one.  The error models the ValueError
float() would raise on a stack capture that is not a valid float. -/
def rosterLoop (button_seat : Nat) : List PlayerState → List Line → Except String (List PlayerState)
  | acc, [] => .ok acc
  | acc, l :: ls =>
    if startsWithStr l "Seat " && containsStr l "in chips" then
      match scanFirst matchSeatLineAt l with
      | none => rosterLoop button_seat acc ls
      | some (seatDigits, nameRaw, stackRaw) =>
        match pyFloat stackRaw with
        | none => .error "ValueError: could not convert string to float"
        | some stack =>
          let seat := digitsToNat seatDigits
          let name := String.mk (pyStrip nameRaw)
          let position := calculate_position seat button_seat (acc.length + 1)
          rosterLoop button_seat
            (acc ++ [{ name := name, seat := seat, stack := stack,
                       position := position, is_hero := name = "Hero" }]) ls
    else rosterLoop button_seat acc ls

/-- Update the first player whose name matches, setting its hole cards (when
the card string is nonempty) and, for the hero, the visibility flag; the
source breaks after the first match. -/
def setCards : List PlayerState → String → Line → List PlayerState
  | [], _, _ => []
  | p :: ps, pname, cards =>
    if p.name = pname then
      (if cards.isEmpty then p
       else { p with hole_cards := (splitWs cards).map String.mk,
                     cards_visible := if p.is_hero then true else p.cards_visible }) :: ps
    else p :: setCards ps pname cards

/-- Second pass of _extract_players: once inside the hole-cards section,
attach dealt cards to the matching player; a later section marker line
stops the scan. -/
def attachHoleCards : List PlayerState → Bool → List Line → List PlayerState
  | ps, _, [] => ps
  | ps, inHole, l :: ls =>
    if containsStr l "*** HOLE CARDS ***" then attachHoleCards ps true ls
    else if startsWithStr l "***" && inHole then ps
    else if inHole && containsStr l "Dealt to" then
      match scanFirst matchDealtAt l with
      | none => attachHoleCards ps inHole ls
      | some (nameRaw, cardsRaw) =>
        attachHoleCards (setCards ps (String.mk (pyStrip nameRaw)) (pyStrip cardsRaw)) inHole ls
    else attachHoleCards ps inHole ls

/-- HandReplayer._extract_players: the roster pass followed by the
hole-cards pass, over the same line list. -/
def extract_players (cs : Line) (button_seat : Nat) : Except String (List PlayerState) :=
  match rosterLoop button_seat [] (splitLines cs) with
  | .error e => .error e
  | .ok ps => .ok (attachHoleCards ps false (splitLines cs))

/-! ## Board extraction (HandReplayer._extract_board_cards) -/

/-- HandReplayer._extract_board_cards: the flop cards (split on
whitespace), the turn card and the river card, each from its own
case-insensitive section pattern, plus the concatenated running board. -/
def extract_board_cards (cs : Line) : List String × List String × String × String :=
  let flopM := scanFirst (matchBoardAt "FLOP" 0) cs
  let turnM := scanFirst (matchBoardAt "TURN" 1) cs
  let riverM := scanFirst (matchBoardAt "RIVER" 1) cs
  let flop_cards :=
    match flopM with
    | some cap => (splitWs (pyStrip cap)).map String.mk
    | none => []
  let turn_card :=
    match turnM with
    | some cap => String.mk (pyStrip cap)
    | none => ""
  let river_card :=
    match riverM with
    | some cap => String.mk (pyStrip cap)
    | none => ""
  let board := flop_cards ++ (match turnM with | some _ => [turn_card] | none => [])
    ++ (match riverM with | some _ => [river_card] | none => [])
  (board, flop_cards, turn_card, river_card)

/-! ## The street and action engine (HandReplayer._extract_all_actions) -/

/-- The mutable local state of the _extract_all_actions loop.  street_bets
is the per-player street-commitment dictionary; total_raise models the
Python local variable of the same name, which is bound only inside the
raise branch's regex guard and persists across loop iterations (none means
it has never been bound, so referencing it raises NameError). -/
structure ActState where
  actions : List ActionStep
  current_street : String
  pot_size : ℚ
  action_number : Nat
  current_board : List String
  street_bets : String → ℚ
  total_raise : Option ℚ

/-- Pointwise dictionary update. -/
def updFn (f : String → ℚ) (k : String) (v : ℚ) : String → ℚ :=
  fun x => if x = k then v else f x

/-- The fresh street-commitment dictionary, every seated player at zero
(built and rebuilt at each street change). -/
def initBets (players : List PlayerState) : String → ℚ :=
  players.foldl (fun f p => updFn f p.name 0) (fun _ => 0)

/-- Append one recognized action, replicating the emission site of the
source: the action number is incremented, total_bet reads the (updated)
street-commitment of the acting player, pot_before is the updated pot minus
the amount when the amount is positive, and pot_after is the updated pot. -/
def emit (s : ActState) (pname : String) (seat : Nat) (atype : String)
    (amount : ℚ) (bets : String → ℚ) (pot : ℚ) (tr : Option ℚ)
    (desc : String) : ActState :=
  { actions := s.actions ++ [{
      action_number := s.action_number + 1,
      street := s.current_street,
      player := pname,
      seat := seat,
      action_type := atype,
      amount := amount,
      total_bet := bets pname,
      pot_before := if 0 < amount then pot - amount else pot,
      pot_after := pot,
      description := desc,
      board_cards := s.current_board }],
    current_street := s.current_street,
    pot_size := pot,
    action_number := s.action_number + 1,
    current_board := s.current_board,
    street_bets := bets,
    total_raise := tr }

/-- The street-marker kinds of the in-loop section tests. -/
inductive MarkerKind
  | flop
  | turn
  | river
  | showdown
deriving Repr, DecidableEq

/-- The in-loop street-marker classification, in the branch order of the
source (case-sensitive substring tests on the stripped line). -/
def lineMarker (l : Line) : Option MarkerKind :=
  if containsStr l "*** FLOP ***" || containsStr l "*** FIRST FLOP ***" then some .flop
  else if containsStr l "*** TURN ***" || containsStr l "*** FIRST TURN ***" then some .turn
  else if containsStr l "*** RIVER ***" || containsStr l "*** FIRST RIVER ***" then some .river
  else if containsStr l "*** SHOWDOWN ***" then some .showdown
  else none

/-- Is this the summary marker (which stops the scan)?  Tested after the
street markers, as in the source's branch order. -/
def isSummaryLine (l : Line) : Bool := containsStr l "*** SUMMARY ***"

/-- The action keywords of the source's any() guard, matched against the
lowercased whole line. -/
def hasActionKeyword (l : Line) : Bool :=
  let low := pyLower l
  containsStr low "folds" || containsStr low "calls" || containsStr low "raises" ||
  containsStr low "bets" || containsStr low "checks" || containsStr low "posts" ||
  containsStr low "collected"

/-- The per-line step outcome: continue with a state, or stop (the summary
break). -/
inductive StepOut
  | next (s : ActState)
  | stop (s : ActState)

/-- The action-text branch chain of the source, entered once the acting
player p is found.  Each branch mirrors its Python counterpart: the money
regex may fail, in which case the amount stays zero and no state is
touched; float() failures are errors; the raise branch formats its
description from total_raise even when its regex did not match, raising
NameError when that local was never bound. -/
def applyActionText (p : PlayerState) (pname : String) (s : ActState)
    (atext : Line) : Except String StepOut :=
  if containsStr atext "posts small blind" then
    match scanFirst matchMoneyAt atext with
    | some astr =>
      match pyFloat astr with
      | none => .error "ValueError: could not convert string to float"
      | some amt =>
        .ok (.next (emit s pname p.seat "post" amt (updFn s.street_bets pname amt)
          (s.pot_size + amt) s.total_raise ("posts small blind $" ++ fmt2 amt)))
    | none =>
      .ok (.next (emit s pname p.seat "post" 0 s.street_bets s.pot_size s.total_raise
        ("posts small blind $" ++ fmt2 0)))
  else if containsStr atext "posts big blind" then
    match scanFirst matchMoneyAt atext with
    | some astr =>
      match pyFloat astr with
      | none => .error "ValueError: could not convert string to float"
      | some amt =>
        .ok (.next (emit s pname p.seat "post" amt (updFn s.street_bets pname amt)
          (s.pot_size + amt) s.total_raise ("posts big blind $" ++ fmt2 amt)))
    | none =>
      .ok (.next (emit s pname p.seat "post" 0 s.street_bets s.pot_size s.total_raise
        ("posts big blind $" ++ fmt2 0)))
  else if containsStr atext "folds" then
    .ok (.next (emit s pname p.seat "fold" 0 s.street_bets s.pot_size s.total_raise "folds"))
  else if containsStr atext "calls" then
    match scanFirst matchCallsAt atext with
    | some astr =>
      match pyFloat astr with
      | none => .error "ValueError: could not convert string to float"
      | some amt =>
        .ok (.next (emit s pname p.seat "call" amt
          (updFn s.street_bets pname (s.street_bets pname + amt))
          (s.pot_size + amt) s.total_raise ("calls $" ++ fmt2 amt)))
    | none =>
      .ok (.next (emit s pname p.seat "call" 0 s.street_bets s.pot_size s.total_raise
        ("calls $" ++ fmt2 0)))
  else if containsStr atext "raises" then
    match scanFirst matchRaiseAt atext with
    | some (astr, bstr) =>
      match pyFloat astr with
      | none => .error "ValueError: could not convert string to float"
      | some amt =>
        match pyFloat bstr with
        | none => .error "ValueError: could not convert string to float"
        | some totalRaise =>
          .ok (.next (emit s pname p.seat "raise" amt
            (updFn s.street_bets pname totalRaise)
            (s.pot_size + amt) (some totalRaise) ("raises to $" ++ fmt2 totalRaise)))
    | none =>
      match s.total_raise with
      | some tr =>
        .ok (.next (emit s pname p.seat "raise" 0 s.street_bets s.pot_size
          (some tr) ("raises to $" ++ fmt2 tr)))
      | none => .error "NameError: total_raise is not defined"
  else if containsStr atext "bets" then
    match scanFirst matchBetsAt atext with
    | some astr =>
      match pyFloat astr with
      | none => .error "ValueError: could not convert string to float"
      | some amt =>
        .ok (.next (emit s pname p.seat "bet" amt (updFn s.street_bets pname amt)
          (s.pot_size + amt) s.total_raise ("bets $" ++ fmt2 amt)))
    | none =>
      .ok (.next (emit s pname p.seat "bet" 0 s.street_bets s.pot_size s.total_raise
        ("bets $" ++ fmt2 0)))
  else if containsStr atext "checks" then
    .ok (.next (emit s pname p.seat "check" 0 s.street_bets s.pot_size s.total_raise "checks"))
  else if containsStr atext "collected" then
    match scanFirst matchCollectedAt atext with
    | some astr =>
      match pyFloat astr with
      | none => .error "ValueError: could not convert string to float"
      | some amt =>
        .ok (.next (emit s pname p.seat "collect" amt s.street_bets s.pot_size
          s.total_raise ("collected $" ++ fmt2 amt)))
    | none =>
      .ok (.next (emit s pname p.seat "collect" 0 s.street_bets s.pot_size s.total_raise
        ("collected $" ++ fmt2 0)))
  else
    .ok (.next s)

/-- One iteration of the _extract_all_actions loop, on the stripped line. -/
def processStripped (players : List PlayerState) (s : ActState) (l : Line) :
    Except String StepOut :=
  if l.isEmpty then .ok (.next s)
  else
    match lineMarker l with
    | some .flop =>
      .ok (.next { s with
        current_street := "flop",
        current_board :=
          match scanFirst matchBracket1At l with
          | some cap => (splitWs (pyStrip cap)).map String.mk
          | none => s.current_board,
        street_bets := initBets players })
    | some .turn =>
      .ok (.next { s with
        current_street := "turn",
        current_board :=
          match scanFirst matchBracket2At l with
          | some cap => s.current_board ++ [String.mk (pyStrip cap)]
          | none => s.current_board,
        street_bets := initBets players })
    | some .river =>
      .ok (.next { s with
        current_street := "river",
        current_board :=
          match scanFirst matchBracket2At l with
          | some cap => s.current_board ++ [String.mk (pyStrip cap)]
          | none => s.current_board,
        street_bets := initBets players })
    | some .showdown => .ok (.next { s with current_street := "showdown" })
    | none =>
      if isSummaryLine l then .ok (.stop s)
      else if containsChar l ':' && hasActionKeyword l then
        match players.find? (fun p => p.name = String.mk (pyStrip (splitFirstColon l).1)) with
        | none => .ok (.next s)
        | some p =>
          applyActionText p (String.mk (pyStrip (splitFirstColon l).1)) s
            (pyStrip (splitFirstColon l).2)
      else if containsStr l "Uncalled bet" && containsStr l "returned to" then
        match scanFirst matchUncalledAt l with
        | none => .ok (.next s)
        | some (astr, nameRaw) =>
          match pyFloat astr with
          | none => .error "ValueError: could not convert string to float"
          | some amt =>
            match players.find? (fun p => p.name = String.mk (pyStrip nameRaw)) with
            | none => .ok (.next { s with pot_size := s.pot_size - amt })
            | some p =>
              .ok (.next { s with
                pot_size := s.pot_size - amt,
                action_number := s.action_number + 1,
                actions := s.actions ++ [{
                  action_number := s.action_number + 1,
                  street := s.current_street,
                  player := String.mk (pyStrip nameRaw),
                  seat := p.seat,
                  action_type := "return",
                  amount := amt,
                  total_bet := 0,
                  pot_before := s.pot_size - amt + amt,
                  pot_after := s.pot_size - amt,
                  description := "uncalled bet $" ++ fmt2 amt ++ " returned",
                  board_cards := s.current_board }] })
      else .ok (.next s)

/-- One iteration of the _extract_all_actions loop on one raw line (the
source strips the line first). -/
def processLine (players : List PlayerState) (s : ActState) (rawLine : Line) :
    Except String StepOut :=
  processStripped players s (pyStrip rawLine)

/-- The loop of _extract_all_actions over the line list (stop models the
summary break). -/
def processLines (players : List PlayerState) : ActState → List Line → Except String ActState
  | s, [] => .ok s
  | s, l :: ls =>
    match processLine players s l with
    | .error e => .error e
    | .ok (.stop s1) => .ok s1
    | .ok (.next s1) => processLines players s1 ls

/-- The initial loop state of _extract_all_actions. -/
def initActState (players : List PlayerState) : ActState :=
  { actions := [], current_street := "preflop", pot_size := 0, action_number := 0,
    current_board := [], street_bets := initBets players, total_raise := none }

/-- HandReplayer._extract_all_actions. -/
def extract_all_actions (cs : Line) (players : List PlayerState) :
    Except String (List ActionStep) :=
  (processLines players (initActState players) (splitLines cs)).map ActState.actions

/-! ## Outcome extraction (_extract_pot_info, _extract_winner) -/

/-- Matcher at one position for a literal immediately followed by a money
capture (Total pot, Rake, Jackpot patterns). -/
def matchLitMoneyAt (lit : List Char) (cs : Line) : Option Line := do
  let r ← dropLit lit cs
  let (run, _) ← take1Class isMoneyChar r
  pure run

/-- One pot-info field: zero when its pattern is absent, a float-conversion
error when the capture is not a valid float. -/
def potInfoField (lit : String) (cs : Line) : Except String ℚ :=
  match scanFirst (matchLitMoneyAt lit.toList) cs with
  | none => .ok 0
  | some run =>
    match pyFloat run with
    | none => .error "ValueError: could not convert string to float"
    | some q => .ok q

/-- HandReplayer._extract_pot_info: total pot, rake and jackpot, each
independently defaulting to zero. -/
def extract_pot_info (cs : Line) : Except String (ℚ × ℚ × ℚ) := do
  let pot ← potInfoField "Total pot $" cs
  let rake ← potInfoField "Rake $" cs
  let jackpot ← potInfoField "Jackpot $" cs
  pure (pot, rake, jackpot)

/-- The suffix of the text starting at the first occurrence of the pattern
(str.find followed by slicing). -/
def suffixFrom (pat : List Char) : Line → Option Line
  | [] => if pat.isPrefixOf [] then some [] else none
  | c :: cs => if pat.isPrefixOf (c :: cs) then some (c :: cs) else suffixFrom pat cs

/-- Descending search for the first success from n down to 0 (the greedy,
backtracking side of the winner patterns). -/
def searchDesc (f : Nat → Option α) : Nat → Option α
  | 0 => f 0
  | n + 1 =>
    match f (n + 1) with
    | some a => some a
    | none => searchDesc f n

/-- Does the rest of the line contain won, completing the lazy dot-star-won
tail of the winner patterns? -/
def wonInfix (cs : Line) : Option Unit :=
  if isSubList "won".toList cs then some () else none

/-- The optional closing bracket before the lazy won tail (consuming
preferred). -/
def closePartRich (cs : Line) : Option Unit :=
  match cs with
  | ']' :: rest =>
    match wonInfix rest with
    | some u => some u
    | none => wonInfix cs
  | _ => wonInfix cs

/-- The possibly-empty greedy shown-hand class capture, backtracking from
the longest run of non-closing-bracket characters down to the empty
capture. -/
def clsPartRich (cs : Line) : Option Line :=
  let M := (cs.takeWhile (fun c => c ≠ ']')).length
  searchDesc (fun m =>
    if m ≤ M then
      match closePartRich (cs.drop m) with
      | some _ => some (cs.take m)
      | none => none
    else none) M

/-- The optional opening bracket before the shown-hand capture (consuming
preferred). -/
def brPartRich (cs : Line) : Option Line :=
  match cs with
  | '[' :: rest =>
    match clsPartRich rest with
    | some cap => some cap
    | none => clsPartRich cs
  | _ => clsPartRich cs

/-- The with-or-showed alternation followed by a space, then the rest of
the rich winner pattern. -/
def kwPartRich (cs : Line) : Option Line :=
  match dropLit "with ".toList cs with
  | some r => brPartRich r
  | none =>
    match dropLit "showed ".toList cs with
    | some r => brPartRich r
    | none => none

/-- The part of the rich winner pattern after the name capture: a lazy
dot-star scan to the keyword alternation. -/
def tailRich (cs : Line) : Option Line := scanFirst kwPartRich cs

/-- The backtracking name capture of the rich winner pattern: the longest
nonempty run of non-parenthesis characters whose remainder matches the
keyword tail. -/
def richAfterColon (rest0 : Line) : Option (Line × Line) :=
  let bound := (rest0.takeWhile (fun c => c ≠ '(')).length
  searchDesc (fun k =>
    if k = 0 then none
    else
      match tailRich (rest0.drop k) with
      | some cap2 => some (rest0.take k, cap2)
      | none => none) bound

/-- Matcher at one position for the rich winner pattern Seat, digits,
colon-space, name capture, lazy gap, with-or-showed, optional brackets,
shown-hand capture, lazy gap, won. -/
def matchRichAt (cs : Line) : Option (Line × Line) := do
  let r ← dropLit "Seat ".toList cs
  let (_, r1) ← take1Class Char.isDigit r
  let r2 ← dropLit ": ".toList r1
  richAfterColon r2

/-- Matcher at one position for the fallback winner pattern Seat, digits,
colon-space, name capture, lazy gap, won. -/
def matchSimpleAt (cs : Line) : Option Line := do
  let r ← dropLit "Seat ".toList cs
  let (_, r1) ← take1Class Char.isDigit r
  let r2 ← dropLit ": ".toList r1
  let bound := (r2.takeWhile (fun c => c ≠ '(')).length
  searchDesc (fun k =>
    if k = 0 then none
    else
      match wonInfix (r2.drop k) with
      | some _ => some (r2.take k)
      | none => none) bound

/-- The summary-line scan of _extract_winner: the first line containing won
and a dollar sign that matches the rich pattern, else the same line against
the fallback pattern; the scan stops at the first matching line. -/
def winnerLoop : List Line → String × String
  | [] => ("", "")
  | l :: ls =>
    if containsStr l "won" && containsChar l '$' then
      match scanFirst matchRichAt l with
      | some (nameRaw, handRaw) =>
        (String.mk (pyStrip nameRaw), String.mk (pyStrip handRaw))
      | none =>
        match scanFirst matchSimpleAt l with
        | some nameRaw => (String.mk (pyStrip nameRaw), "")
        | none => winnerLoop ls
    else winnerLoop ls

/-- HandReplayer._extract_winner: scan the summary section only. -/
def extract_winner (cs : Line) : String × String :=
  match suffixFrom "*** SUMMARY ***".toList cs with
  | none => ("", "")
  | some summary => winnerLoop (splitLines summary)

/-! ## Hand assembly (HandReplayer.parse_hand_for_replay) -/

/-- The body of parse_hand_for_replay before its try/except: the field
extractions in source order, propagating the modelled exceptions. -/
def parseE (cs : Line) : Except String HandReplay :=
  match extract_timestamp cs with
  | .error e => .error e
  | .ok ts =>
    match extract_players cs (extract_button_seat cs) with
    | .error e => .error e
    | .ok players =>
      match extract_all_actions cs players with
      | .error e => .error e
      | .ok actions =>
        match extract_pot_info cs with
        | .error e => .error e
        | .ok (fp, rk, jp) =>
          .ok { hand_id := extract_hand_id cs, timestamp := ts,
                table_name := extract_table_name cs,
                stakes := extract_stakes cs,
                button_seat := extract_button_seat cs, players := players,
                actions := actions, final_pot := fp, rake := rk, jackpot := jp,
                winner := (extract_winner cs).1,
                winning_hand := (extract_winner cs).2,
                board_cards := (extract_board_cards cs).1,
                flop_cards := (extract_board_cards cs).2.1,
                turn_card := (extract_board_cards cs).2.2.1,
                river_card := (extract_board_cards cs).2.2.2 }

/-- HandReplayer.parse_hand_for_replay: the try/except maps any modelled
exception to none. -/
def parse_hand_for_replay (t : String) : Option HandReplay :=
  match parseE t.toList with
  | .ok h => some h
  | .error _ => none

/-! ## Replay state reconstruction (HandReplayer.get_state_at_action) -/

/-- One per-player snapshot dictionary of get_state_at_action. -/
structure SnapPlayer where
  name : String
  seat : Nat
  position : String
  stack : ℚ
  current_bet : ℚ
  total_invested : ℚ
  is_active : Bool
  is_hero : Bool
  hole_cards : List String
  cards_visible : Bool
deriving Repr, DecidableEq

/-- Insert-or-replace in an insertion-ordered association list (Python dict
assignment: an overwrite keeps the original position). -/
def upsert : List (String × SnapPlayer) → String → SnapPlayer → List (String × SnapPlayer)
  | [], k, v => [(k, v)]
  | (k0, v0) :: rest, k, v =>
    if k0 = k then (k0, v) :: rest else (k0, v0) :: upsert rest k v

/-- Dictionary lookup (none models KeyError). -/
def dictGet : List (String × SnapPlayer) → String → Option SnapPlayer
  | [], _ => none
  | (k0, v0) :: rest, k => if k0 = k then some v0 else dictGet rest k

/-- The initial snapshot dictionary: every player at the starting stack,
no bet, active, hole cards and visibility for the hero only. -/
def initSnaps (players : List PlayerState) : List (String × SnapPlayer) :=
  players.foldl (fun d p => upsert d p.name {
    name := p.name, seat := p.seat, position := p.position, stack := p.stack,
    current_bet := 0, total_invested := 0, is_active := true, is_hero := p.is_hero,
    hole_cards := if p.is_hero then p.hole_cards else [],
    cards_visible := p.is_hero }) []

/-- The effect of one applied ActionStep on its player's snapshot. -/
def applyEffect (a : ActionStep) (st : SnapPlayer) : SnapPlayer :=
  if a.action_type = "fold" then { st with is_active := false }
  else if a.action_type = "call" ∨ a.action_type = "bet" ∨ a.action_type = "raise"
      ∨ a.action_type = "post" then
    { st with stack := st.stack - a.amount, current_bet := a.total_bet,
              total_invested := st.total_invested + a.amount }
  else if a.action_type = "collect" then { st with stack := st.stack + a.amount }
  else if a.action_type = "return" then { st with stack := st.stack + a.amount }
  else st

/-- The forward scan of get_state_at_action: apply each action while the
running index is below the target index (the loop's break), tracking the
street, board and pot exactly as the source does; a missing player is the
KeyError. -/
def applyActions (idx : Int) :
    Nat → List (String × SnapPlayer) → ℚ → String → List String → List ActionStep →
    Except String (List (String × SnapPlayer) × ℚ × String × List String)
  | _, snaps, pot, street, board, [] => .ok (snaps, pot, street, board)
  | i, snaps, pot, street, board, a :: rest =>
    if (i : Int) ≥ idx then .ok (snaps, pot, street, board)
    else
      match dictGet snaps a.player with
      | none => .error "KeyError"
      | some st =>
        applyActions idx (i + 1) (upsert snaps a.player (applyEffect a st))
          a.pot_after a.street a.board_cards rest

/-- Python list indexing with an int index: nonnegative indices in range,
negative indices counted from the end, IndexError otherwise. -/
def pyListGet (l : List ActionStep) (i : Int) : Except String ActionStep :=
  if 0 ≤ i then
    match l.get? i.toNat with
    | some a => .ok a
    | none => .error "IndexError: list index out of range"
  else
    let j : Int := (l.length : Int) + i
    if 0 ≤ j then
      match l.get? j.toNat with
      | some a => .ok a
      | none => .error "IndexError: list index out of range"
    else .error "IndexError: list index out of range"

/-- The dictionary returned by get_state_at_action, as a record. -/
structure StateResult where
  players : List SnapPlayer
  pot : ℚ
  street : String
  board_cards : List String
  current_action : Option ActionStep
  action_index : Int
  total_actions : Nat
deriving Repr, DecidableEq

/-- HandReplayer.get_state_at_action: the complete game state at the given
action index.  The source never mutates the replay; the only exceptional
paths are the KeyError of the forward scan and the IndexError of a
negative index below minus the action count. -/
def get_state_at_action (replay : HandReplay) (action_index : Int) :
    Except String StateResult :=
  match applyActions action_index 0 (initSnaps replay.players) 0 "preflop" []
      replay.actions with
  | .error e => .error e
  | .ok scanned =>
    match (if action_index < (replay.actions.length : Int) then
        (pyListGet replay.actions action_index).map some
      else .ok none) with
    | .error e => .error e
    | .ok current_action =>
      .ok { players := scanned.1.map Prod.snd, pot := scanned.2.1,
            street := scanned.2.2.1, board_cards := scanned.2.2.2,
            current_action := current_action, action_index := action_index,
            total_actions := replay.actions.length }

/-- A sequence of get_state_at_action calls against the same replay,
threading the replay through each call.  The source method assigns to no
field of the replay and to no global, so one call is the pair of the
unchanged replay and the computed state. -/
def runQueries (r : HandReplay) : List Int → HandReplay × List (Except String StateResult)
  | [] => (r, [])
  | i :: is =>
    let res := get_state_at_action r i
    let rest := runQueries r is
    (rest.1, res :: rest.2)

/-! ## The statistics engine's showdown rule (spec-modelled) -/

/-- Modelled from the spec: the statistics derivation engine
(hero_analysis_parser.HeroAnalysisParser, with its
detect_multi_player_showdown and won-at-showdown computation) is imported
by main.py and exercised by test_multiplier_showdown.py but its source file
is not part of the repository snapshot.  Following the spec's
multi-player-showdown rule: won_at_showdown is true iff the hand went to
showdown, at least two players' hole cards were revealed in the
showdown/summary text, and the hero's total collected amount is strictly
positive. -/
def won_at_showdown (went_to_showdown : Bool) (players_shown : Nat)
    (total_collected : ℚ) : Bool :=
  went_to_showdown && decide (2 ≤ players_shown) && decide (0 < total_collected)

/-! ## The claimed position formula (refinement comparison for C1) -/

/-- The position label rule as the claim words it: the label list is
selected by the hand's total player count, and the index is the seat offset
from the button modulo that total count, clamped to the last label.  This
definition follows the claim's words, to be compared with
calculate_position as the code applies it. -/
def specPosition (num_players seat button_seat : Nat) : String :=
  let positions := if num_players ≤ 6 then positions_6max else positions_9max
  let offset := (pyIntMod ((seat : Int) - (button_seat : Int)) (num_players : Int)).toNat
  positions.getD (min offset (positions.length - 1)) ""

/-! ## The pot bookkeeping invariant -/

/-- The per-action pot bookkeeping facts that hold of every emitted action:
amounts are nonnegative, the recorded pot_before of every non-return action
is its pot_after minus its amount, a return's pot_after is its pot_before
minus its amount, and fold and check carry a zero amount. -/
def PotInv (acts : List ActionStep) : Prop :=
  ∀ a ∈ acts,
    0 ≤ a.amount ∧
    (a.action_type = "return" → a.pot_after = a.pot_before - a.amount) ∧
    (a.action_type ≠ "return" → a.pot_before = a.pot_after - a.amount) ∧
    ((a.action_type = "fold" ∨ a.action_type = "check") → a.amount = 0)

theorem pyFloat_nonneg (cs : Line) (q : ℚ) (h : pyFloat cs = some q) : 0 ≤ q := by
  unfold pyFloat at h
  split at h
  · split at h
    · exact absurd h (by simp)
    · simp only [Option.some.injEq] at h
      subst h
      positivity
  · split at h
    · simp only [Option.some.injEq] at h
      subst h
      positivity
    · exact absurd h (by simp)
  · exact absurd h (by simp)

theorem potInv_snoc (acts : List ActionStep) (a : ActionStep)
    (h : PotInv acts)
    (h0 : 0 ≤ a.amount)
    (h1 : a.action_type = "return" → a.pot_after = a.pot_before - a.amount)
    (h2 : a.action_type ≠ "return" → a.pot_before = a.pot_after - a.amount)
    (h3 : (a.action_type = "fold" ∨ a.action_type = "check") → a.amount = 0) :
    PotInv (acts ++ [a]) := by
  intro b hb
  rcases List.mem_append.mp hb with hb | hb
  · exact h b hb
  · rcases List.mem_singleton.mp hb with rfl
    exact ⟨h0, h1, h2, h3⟩

/-- The pot_before field of every emission through emit equals the emitted
pot_after minus the amount, given a nonnegative amount. -/
theorem emit_pot_before (amount pot : ℚ) (hamt : 0 ≤ amount) :
    (if 0 < amount then pot - amount else pot) = pot - amount := by
  split_ifs with hlt
  · rfl
  · have hz : amount = 0 := le_antisymm (not_lt.mp hlt) hamt
    rw [hz, sub_zero]

/-- emit preserves the pot invariant for every non-return action type with
a nonnegative amount that is zero for fold and check. -/
theorem potInv_emit (s : ActState) (pname : String) (seat : Nat) (atype : String)
    (amount : ℚ) (bets : String → ℚ) (pot : ℚ) (tr : Option ℚ) (desc : String)
    (hInv : PotInv s.actions) (hamt : 0 ≤ amount) (htype : atype ≠ "return")
    (hzero : (atype = "fold" ∨ atype = "check") → amount = 0) :
    PotInv (emit s pname seat atype amount bets pot tr desc).actions := by
  apply potInv_snoc _ _ hInv hamt
  · intro hret
    exact absurd hret htype
  · intro _
    exact emit_pot_before amount pot hamt
  · exact hzero

/-- The state carried out of a step, whether the loop continues or stops. -/
def outState : StepOut → ActState
  | .next s => s
  | .stop s => s

theorem applyActionText_potInv (p : PlayerState) (pname : String) (s : ActState)
    (atext : Line) (out : StepOut) (hInv : PotInv s.actions)
    (h : applyActionText p pname s atext = .ok out) :
    PotInv (outState out).actions := by
  unfold applyActionText at h
  split at h
  · -- posts small blind
    split at h
    · split at h
      · exact absurd h (by simp)
      · cases h
        exact potInv_emit _ _ _ _ _ _ _ _ _ hInv (pyFloat_nonneg _ _ (by assumption))
          (by decide) (by rintro (hc | hc) <;> exact absurd hc (by decide))
    · cases h
      exact potInv_emit _ _ _ _ _ _ _ _ _ hInv le_rfl
        (by decide) (by rintro (hc | hc) <;> exact absurd hc (by decide))
  · split at h
    · -- posts big blind
      split at h
      · split at h
        · exact absurd h (by simp)
        · cases h
          exact potInv_emit _ _ _ _ _ _ _ _ _ hInv (pyFloat_nonneg _ _ (by assumption))
            (by decide) (by rintro (hc | hc) <;> exact absurd hc (by decide))
      · cases h
        exact potInv_emit _ _ _ _ _ _ _ _ _ hInv le_rfl
          (by decide) (by rintro (hc | hc) <;> exact absurd hc (by decide))
    · split at h
      · -- folds
        cases h
        exact potInv_emit _ _ _ _ _ _ _ _ _ hInv le_rfl (by decide) (fun _ => rfl)
      · split at h
        · -- calls
          split at h
          · split at h
            · exact absurd h (by simp)
            · cases h
              exact potInv_emit _ _ _ _ _ _ _ _ _ hInv (pyFloat_nonneg _ _ (by assumption))
                (by decide) (by rintro (hc | hc) <;> exact absurd hc (by decide))
          · cases h
            exact potInv_emit _ _ _ _ _ _ _ _ _ hInv le_rfl
              (by decide) (by rintro (hc | hc) <;> exact absurd hc (by decide))
        · split at h
          · -- raises
            split at h
            · split at h
              · exact absurd h (by simp)
              · split at h
                · exact absurd h (by simp)
                · cases h
                  exact potInv_emit _ _ _ _ _ _ _ _ _ hInv
                    (pyFloat_nonneg _ _ (by assumption))
                    (by decide) (by rintro (hc | hc) <;> exact absurd hc (by decide))
            · split at h
              · cases h
                exact potInv_emit _ _ _ _ _ _ _ _ _ hInv le_rfl
                  (by decide) (by rintro (hc | hc) <;> exact absurd hc (by decide))
              · exact absurd h (by simp)
          · split at h
            · -- bets
              split at h
              · split at h
                · exact absurd h (by simp)
                · cases h
                  exact potInv_emit _ _ _ _ _ _ _ _ _ hInv
                    (pyFloat_nonneg _ _ (by assumption))
                    (by decide) (by rintro (hc | hc) <;> exact absurd hc (by decide))
              · cases h
                exact potInv_emit _ _ _ _ _ _ _ _ _ hInv le_rfl
                  (by decide) (by rintro (hc | hc) <;> exact absurd hc (by decide))
            · split at h
              · -- checks
                cases h
                exact potInv_emit _ _ _ _ _ _ _ _ _ hInv le_rfl (by decide) (fun _ => rfl)
              · split at h
                · -- collected
                  split at h
                  · split at h
                    · exact absurd h (by simp)
                    · cases h
                      exact potInv_emit _ _ _ _ _ _ _ _ _ hInv
                        (pyFloat_nonneg _ _ (by assumption))
                        (by decide) (by rintro (hc | hc) <;> exact absurd hc (by decide))
                  · cases h
                    exact potInv_emit _ _ _ _ _ _ _ _ _ hInv le_rfl
                      (by decide) (by rintro (hc | hc) <;> exact absurd hc (by decide))
                · cases h
                  exact hInv

theorem processLine_potInv (players : List PlayerState) (s : ActState) (l : Line)
    (out : StepOut) (hInv : PotInv s.actions)
    (h : processLine players s l = .ok out) :
    PotInv (outState out).actions := by
  unfold processLine processStripped at h
  split at h
  · cases h
    exact hInv
  · split at h
    · cases h
      exact hInv
    · cases h
      exact hInv
    · cases h
      exact hInv
    · cases h
      exact hInv
    · split at h
      · cases h
        exact hInv
      · split at h
        · split at h
          · cases h
            exact hInv
          · exact applyActionText_potInv _ _ _ _ _ hInv h
        · split at h
          · split at h
            · cases h
              exact hInv
            · split at h
              · exact absurd h (by simp)
              · split at h
                · cases h
                  exact hInv
                · cases h
                  apply potInv_snoc _ _ hInv (pyFloat_nonneg _ _ (by assumption))
                  · intro _
                    dsimp only
                    ring
                  · intro habs
                    exact absurd rfl habs
                  · rintro (hc | hc) <;> simp at hc
          · cases h
            exact hInv

theorem processLines_potInv (players : List PlayerState) :
    ∀ (ls : List Line) (s s1 : ActState), PotInv s.actions →
    processLines players s ls = .ok s1 → PotInv s1.actions := by
  intro ls
  induction ls with
  | nil =>
    intro s s1 hInv h
    cases h
    exact hInv
  | cons l ls ih =>
    intro s s1 hInv h
    unfold processLines at h
    split at h
    · exact absurd h (by simp)
    · rename_i s2 heq
      cases h
      exact processLine_potInv players s l _ hInv heq
    · rename_i s2 heq
      exact ih _ _ (processLine_potInv players s l _ hInv heq) h

theorem extract_all_actions_potInv (cs : Line) (players : List PlayerState)
    (acts : List ActionStep) (h : extract_all_actions cs players = .ok acts) :
    PotInv acts := by
  unfold extract_all_actions at h
  cases heq : processLines players (initActState players) (splitLines cs) with
  | error e =>
    rw [heq] at h
    exact absurd h (by simp [Except.map])
  | ok s1 =>
    rw [heq] at h
    simp only [Except.map, Except.ok.injEq] at h
    subst h
    exact processLines_potInv players _ _ _ (by intro a ha; simp [initActState] at ha) heq

theorem parse_eq_parseE (t : String) (h : HandReplay)
    (hp : parse_hand_for_replay t = some h) : parseE t.toList = .ok h := by
  unfold parse_hand_for_replay at hp
  split at hp
  · simp only [Option.some.injEq] at hp
    subst hp
    assumption
  · exact absurd hp (by simp)

theorem parse_potInv (t : String) (h : HandReplay)
    (hp : parse_hand_for_replay t = some h) : PotInv h.actions := by
  have heq := parse_eq_parseE t h hp
  unfold parseE at heq
  split at heq
  · exact absurd heq (by simp)
  · split at heq
    · exact absurd heq (by simp)
    · split at heq
      · exact absurd heq (by simp)
      · rename_i actions hacts
        split at heq
        · exact absurd heq (by simp)
        · simp only [Except.ok.injEq] at heq
          subst heq
          exact extract_all_actions_potInv _ _ _ hacts

/-! ## Concrete fixtures used by the witnesses and counterexamples -/

instance exceptDecEq {ε α : Type} [DecidableEq ε] [DecidableEq α] :
    DecidableEq (Except ε α)
  | .ok a, .ok b =>
    if h : a = b then .isTrue (by rw [h]) else .isFalse (by simp [h])
  | .ok _, .error _ => .isFalse (by simp)
  | .error _, .ok _ => .isFalse (by simp)
  | .error e, .error f =>
    if h : e = f then .isTrue (by rw [h]) else .isFalse (by simp [h])

instance : Inhabited ActionStep :=
  ⟨{ action_number := 0, street := "", player := "", seat := 0, action_type := "",
     amount := 0, total_bet := 0, pot_before := 0, pot_after := 0, description := "" }⟩

instance : Inhabited PlayerState :=
  ⟨{ name := "", seat := 0, stack := 0, position := "" }⟩

instance : Inhabited HandReplay :=
  ⟨{ hand_id := "", timestamp := none, table_name := "", stakes := "", button_seat := 0,
     players := [], actions := [], final_pot := 0, rake := 0, jackpot := 0 }⟩

/-- A well-formed two-player hand text exercising posts, a raise, a call, a
flop, a bet, a fold, an uncalled-bet return, a collect and a summary. -/
def sampleHandText : String :=
  "Poker Hand #AB12\nSeat #2 is the button\nSeat 1: Hero ($5.00 in chips)\nSeat 2: Bob ($3.00 in chips)\n*** HOLE CARDS ***\nDealt to Hero [Ah Kh]\nHero: posts small blind $0.02\nBob: posts big blind $0.05\nHero: raises $0.15 to $0.20\nBob: calls $0.15\n*** FLOP *** [2h 7d 9c]\nBob: checks\nHero: bets $0.25\nBob: folds\nUncalled bet $0.25 returned to Hero\nHero: collected $0.37 from pot\n*** SUMMARY ***\nTotal pot $0.37 | Rake $0.00\n"

/-- The parse of the sample hand (a total value via the default). -/
def sampleHand : HandReplay := (parse_hand_for_replay sampleHandText).getD default

/-- The call action of the sample hand (index 3 of its action list). -/
def sampleCall : ActionStep := sampleHand.actions.getD 3 default

/-! ## Claim theorems -/

/-- C2: for every hand parsed from any input text and every ActionStep in
its action list, a post, call, bet or raise has pot_after equal to
pot_before plus amount; a return has pot_after equal to pot_before minus
amount; a fold or check leaves the pot unchanged. -/
theorem c2_action_pot_arithmetic (t : String) (h : HandReplay)
    (hp : parse_hand_for_replay t = some h) :
    ∀ a ∈ h.actions,
      ((a.action_type = "post" ∨ a.action_type = "call" ∨ a.action_type = "bet"
          ∨ a.action_type = "raise") → a.pot_after = a.pot_before + a.amount) ∧
      (a.action_type = "return" → a.pot_after = a.pot_before - a.amount) ∧
      ((a.action_type = "fold" ∨ a.action_type = "check") → a.pot_after = a.pot_before) := by
  intro a ha
  have hi := parse_potInv t h hp a ha
  refine ⟨?_, hi.2.1, ?_⟩
  · intro ht
    have hne : a.action_type ≠ "return" := by
      rcases ht with ht | ht | ht | ht <;> rw [ht] <;> decide
    have hb := hi.2.2.1 hne
    rw [hb]
    ring
  · intro ht
    have hne : a.action_type ≠ "return" := by
      rcases ht with ht | ht <;> rw [ht] <;> decide
    have hb := hi.2.2.1 hne
    have hz := hi.2.2.2 ht
    rw [hb, hz]
    ring

set_option maxRecDepth 8192 in
unseal Rat.add Rat.mul Rat.sub Rat.inv Rat.ofScientific in
/-- Witness for C2 at the sample hand's call action. -/
theorem c2_witness : sampleCall.pot_after = sampleCall.pot_before + sampleCall.amount :=
  (c2_action_pot_arithmetic sampleHandText sampleHand (by decide) sampleCall
    (by decide)).1 (Or.inr (Or.inl (by decide)))

/-- The collect action of the sample hand (index 8 of its action list). -/
def sampleCollect : ActionStep := sampleHand.actions.getD 8 default

/-- A concrete loop state with a nonempty pot, for the step-level
witnesses. -/
def sampleActState : ActState :=
  { actions := [], current_street := "flop", pot_size := 5, action_number := 3,
    current_board := [], street_bets := fun _ => 0, total_raise := none }

/-- A concrete acting player for the step-level witnesses. -/
def samplePlayer : PlayerState :=
  { name := "Hero", seat := 1, stack := 5, position := "Button", is_hero := true }

/-- C3: in every parsed hand, a collect action records pot_before as
pot_after minus its amount; and at the step level, processing a collected
action line emits pot_after equal to the running pot while leaving the
running pot counter untouched (the collect amount is not added to it). -/
theorem c3_collect_pot_quirk :
    (∀ (t : String) (h : HandReplay), parse_hand_for_replay t = some h →
      ∀ a ∈ h.actions, a.action_type = "collect" →
        a.pot_before = a.pot_after - a.amount) ∧
    (∀ (p : PlayerState) (pname : String) (s : ActState) (atext astr : Line) (A : ℚ),
      containsStr atext "posts small blind" = false →
      containsStr atext "posts big blind" = false →
      containsStr atext "folds" = false →
      containsStr atext "calls" = false →
      containsStr atext "raises" = false →
      containsStr atext "bets" = false →
      containsStr atext "checks" = false →
      containsStr atext "collected" = true →
      scanFirst matchCollectedAt atext = some astr →
      pyFloat astr = some A →
      ∃ s1 a, applyActionText p pname s atext = .ok (.next s1) ∧
        s1.pot_size = s.pot_size ∧
        s1.actions = s.actions ++ [a] ∧
        a.action_type = "collect" ∧ a.amount = A ∧
        a.pot_after = s.pot_size ∧ a.pot_before = a.pot_after - A) := by
  constructor
  · intro t h hp a ha hc
    have hi := parse_potInv t h hp a ha
    exact hi.2.2.1 (by rw [hc]; decide)
  · intro p pname s atext astr A h1 h2 h3 h4 h5 h6 h7 h8 hscan hfloat
    have hrun : applyActionText p pname s atext = .ok (.next (emit s pname p.seat
        "collect" A s.street_bets s.pot_size s.total_raise ("collected $" ++ fmt2 A))) := by
      unfold applyActionText
      simp only [h1, h2, h3, h4, h5, h6, h7, h8, hscan, hfloat]
      rfl
    exact ⟨_, _, hrun, rfl, rfl, rfl, rfl, rfl,
      emit_pot_before A s.pot_size (pyFloat_nonneg _ _ hfloat)⟩

set_option maxRecDepth 8192 in
unseal Rat.add Rat.mul Rat.sub Rat.inv Rat.ofScientific in
/-- Witness for C3: the sample hand's collect action, and the step applied
to a concrete collected line against a five-dollar pot. -/
theorem c3_witness :
    (sampleCollect.pot_before = sampleCollect.pot_after - sampleCollect.amount) ∧
    (∃ s1 a, applyActionText samplePlayer "Hero" sampleActState
        "collected $0.37 from pot".toList = .ok (.next s1) ∧
      s1.pot_size = sampleActState.pot_size ∧
      s1.actions = sampleActState.actions ++ [a] ∧
      a.action_type = "collect" ∧ a.amount = (37 : ℚ) / 100 ∧
      a.pot_after = sampleActState.pot_size ∧
      a.pot_before = a.pot_after - (37 : ℚ) / 100) :=
  ⟨c3_collect_pot_quirk.1 sampleHandText sampleHand (by decide) sampleCollect
      (by decide) (by decide),
   c3_collect_pot_quirk.2 samplePlayer "Hero" sampleActState
      "collected $0.37 from pot".toList "0.37".toList ((37 : ℚ) / 100)
      (by decide) (by decide) (by decide) (by decide) (by decide) (by decide)
      (by decide) (by decide) (by decide) (by decide)⟩

/-- C4: for every action line whose text matches raises dollar-A to
dollar-B, the emitted ActionStep records the player's street commitment
(total_bet) as B and the amount as A, and the running pot increases by
exactly the literal A from the text (not by B minus the player's prior
street commitment, which the conclusion leaves untouched by never reading
it). -/
theorem c4_raise_literal_amount (p : PlayerState) (pname : String) (s : ActState)
    (atext astr bstr : Line) (A B : ℚ)
    (h1 : containsStr atext "posts small blind" = false)
    (h2 : containsStr atext "posts big blind" = false)
    (h3 : containsStr atext "folds" = false)
    (h4 : containsStr atext "calls" = false)
    (h5 : containsStr atext "raises" = true)
    (hscan : scanFirst matchRaiseAt atext = some (astr, bstr))
    (hA : pyFloat astr = some A) (hB : pyFloat bstr = some B) :
    ∃ s1 a, applyActionText p pname s atext = .ok (.next s1) ∧
      s1.pot_size = s.pot_size + A ∧
      s1.street_bets pname = B ∧
      s1.actions = s.actions ++ [a] ∧
      a.action_type = "raise" ∧ a.amount = A ∧ a.total_bet = B := by
  have hrun : applyActionText p pname s atext = .ok (.next (emit s pname p.seat
      "raise" A (updFn s.street_bets pname B) (s.pot_size + A) (some B)
      ("raises to $" ++ fmt2 B))) := by
    unfold applyActionText
    simp only [h1, h2, h3, h4, h5, hscan, hA, hB]
    rfl
  refine ⟨_, _, hrun, rfl, ?_, rfl, rfl, rfl, ?_⟩
  · show updFn s.street_bets pname B pname = B
    simp [updFn]
  · show updFn s.street_bets pname B pname = B
    simp [updFn]

/-- A concrete loop state in which the acting player already has a tenth in
front (so that B minus the prior commitment differs from the literal A). -/
def sampleRaiseState : ActState :=
  { actions := [], current_street := "preflop", pot_size := 5, action_number := 3,
    current_board := [], street_bets := fun n => if n = "Hero" then (1 : ℚ) / 10 else 0,
    total_raise := none }

set_option maxRecDepth 8192 in
unseal Rat.add Rat.mul Rat.sub Rat.inv Rat.ofScientific in
/-- Witness for C4: a raises line adding fifteen hundredths to a total of
twenty hundredths while the prior street commitment is a tenth, so that B
minus the prior commitment is a tenth, different from the literal A. -/
theorem c4_witness :
    sampleRaiseState.street_bets "Hero" = (1 : ℚ) / 10 ∧
    (1 : ℚ) / 5 - (1 : ℚ) / 10 ≠ (3 : ℚ) / 20 ∧
    (∃ s1 a, applyActionText samplePlayer "Hero" sampleRaiseState
        "raises $0.15 to $0.20".toList = .ok (.next s1) ∧
      s1.pot_size = sampleRaiseState.pot_size + (3 : ℚ) / 20 ∧
      s1.street_bets "Hero" = (1 : ℚ) / 5 ∧
      s1.actions = sampleRaiseState.actions ++ [a] ∧
      a.action_type = "raise" ∧ a.amount = (3 : ℚ) / 20 ∧ a.total_bet = (1 : ℚ) / 5) :=
  ⟨by decide, by decide,
   c4_raise_literal_amount samplePlayer "Hero" sampleRaiseState
     "raises $0.15 to $0.20".toList "0.15".toList "0.20".toList ((3 : ℚ) / 20) ((1 : ℚ) / 5)
     (by decide) (by decide) (by decide) (by decide) (by decide) (by decide)
     (by decide) (by decide)⟩

/-- C5 (spec-modelled): won_at_showdown is true iff the hand went to
showdown, at least two players' hole cards were revealed, and the hero's
total collected amount is strictly positive; a showdown where exactly one
player shows never sets it, whatever the hero collected. -/
theorem c5_won_at_showdown_rule :
    (∀ (w : Bool) (n : Nat) (c : ℚ),
      won_at_showdown w n c = true ↔ (w = true ∧ 2 ≤ n ∧ 0 < c)) ∧
    (∀ (w : Bool) (c : ℚ), won_at_showdown w 1 c = false) := by
  constructor
  · intro w n c
    simp [won_at_showdown, and_assoc]
  · intro w c
    simp [won_at_showdown]

unseal Rat.add Rat.mul Rat.sub Rat.inv Rat.ofScientific in
/-- Witness for C5: a hero who collects at a single-shower showdown does
not win at showdown, while the same collection with two showers does. -/
theorem c5_witness :
    won_at_showdown true 1 ((37 : ℚ) / 100) = false ∧
    won_at_showdown true 2 ((37 : ℚ) / 100) = true :=
  ⟨c5_won_at_showdown_rule.2 true ((37 : ℚ) / 100),
   (c5_won_at_showdown_rule.1 true 2 ((37 : ℚ) / 100)).mpr ⟨rfl, by decide, by decide⟩⟩

/-- A replay with one player and no actions, for the out-of-range
counterexample. -/
def sampleEmptyReplay : HandReplay :=
  { hand_id := "R0", timestamp := none, table_name := "", stakes := "",
    button_seat := 1,
    players := [{ name := "Hero", seat := 1, stack := 5, position := "Button",
                  is_hero := true }],
    actions := [], final_pot := 0, rake := 0, jackpot := 0 }

/-- C6 counterexample: the index one is out of range for this replay's
empty action list, yet get_state_at_action returns a state (no modelled
exception) instead of failing loudly. -/
theorem c6_counterexample :
    ((1 : Int) > (sampleEmptyReplay.actions.length : Int)) ∧
    (get_state_at_action sampleEmptyReplay 1).toOption.isSome = true :=
  ⟨by decide, by decide⟩

theorem applyActions_past (idx idx' : Int) :
    ∀ (l : List ActionStep) (i : Nat) (snaps : List (String × SnapPlayer)) (pot : ℚ)
      (street : String) (board : List String),
      ((l.length : Int) + i ≤ idx) → ((l.length : Int) + i ≤ idx') →
      applyActions idx i snaps pot street board l
        = applyActions idx' i snaps pot street board l := by
  intro l
  induction l with
  | nil => intros; rfl
  | cons a rest ih =>
    intro i snaps pot street board h1 h2
    unfold applyActions
    have hn1 : ¬ ((i : Int) ≥ idx) := by
      simp only [List.length_cons] at h1
      push_cast at h1 ⊢
      omega
    have hn2 : ¬ ((i : Int) ≥ idx') := by
      simp only [List.length_cons] at h2
      push_cast at h2 ⊢
      omega
    rw [if_neg hn1, if_neg hn2]
    cases dictGet snaps a.player with
    | none => rfl
    | some st =>
      apply ih
      · simp only [List.length_cons] at h1
        push_cast at h1 ⊢
        omega
      · simp only [List.length_cons] at h2
        push_cast at h2 ⊢
        omega

/-- C6 amended: an out-of-range index above the action count is not
treated as an error: the reconstructor silently returns the hand's final
state (the state at the action count), with only the reported action_index
changed to the given index and no current action. -/
theorem c6_out_of_range_silent (r : HandReplay) (i : Int)
    (hi : (r.actions.length : Int) < i) :
    get_state_at_action r i =
      (get_state_at_action r (r.actions.length : Int)).map
        (fun st => { st with action_index := i }) := by
  unfold get_state_at_action
  rw [applyActions_past i ((r.actions.length : Int)) r.actions 0 _ _ _ _
    (by push_cast; omega) (by push_cast; omega)]
  have hn1 : ¬ (i < (r.actions.length : Int)) := by omega
  have hn2 : ¬ ((r.actions.length : Int) < (r.actions.length : Int)) := by omega
  rw [if_neg hn1, if_neg hn2]
  cases applyActions ((r.actions.length : Int)) 0 (initSnaps r.players) 0 "preflop" []
      r.actions with
  | error e => rfl
  | ok scanned => rfl

/-- Witness for C6 (amended): the empty replay at index one yields the
final state with the index field rewritten. -/
theorem c6_witness :
    get_state_at_action sampleEmptyReplay 1 =
      (get_state_at_action sampleEmptyReplay
        ((sampleEmptyReplay.actions.length : Nat) : Int)).map
        (fun st => { st with action_index := 1 }) :=
  c6_out_of_range_silent sampleEmptyReplay 1 (by decide)

/-- C7: querying the reconstructor never mutates the replay (the threaded
replay of a query sequence is returned unchanged), and every answer in the
sequence equals the answer of a fresh query at that index alone — so two
calls at the same index yield identical snapshots and prior queries never
affect later ones. -/
theorem c7_queries_deterministic (r : HandReplay) (idxs : List Int) :
    (runQueries r idxs).1 = r ∧
    (runQueries r idxs).2 = idxs.map (get_state_at_action r) := by
  induction idxs with
  | nil => exact ⟨rfl, rfl⟩
  | cons i is ih =>
    unfold runQueries
    exact ⟨ih.1, by rw [List.map_cons]; exact congrArg _ ih.2⟩

/-- C9: each header-field extraction is independently tolerant of absence:
with no hand-id match the id is the empty string, with no timestamp match
the extraction succeeds with the wall-clock fallback (modelled as ok none)
rather than raising, and with no button match the button seat is one. -/
theorem c9_header_defaults (cs : Line) :
    (scanFirst matchHandIdAt cs = none → extract_hand_id cs = "") ∧
    (scanFirst matchTimestampAt cs = none → extract_timestamp cs = .ok none) ∧
    (scanFirst matchButtonAt cs = none → extract_button_seat cs = 1) := by
  refine ⟨fun h => ?_, fun h => ?_, fun h => ?_⟩
  · unfold extract_hand_id
    rw [h]
  · unfold extract_timestamp
    rw [h]
  · unfold extract_button_seat
    rw [h]

/-- Witness for C9 on a text with none of the three header patterns. -/
theorem c9_witness :
    extract_hand_id "hello world".toList = "" ∧
    extract_timestamp "hello world".toList = .ok none ∧
    extract_button_seat "hello world".toList = 1 :=
  ⟨(c9_header_defaults "hello world".toList).1 (by decide),
   (c9_header_defaults "hello world".toList).2.1 rfl,
   (c9_header_defaults "hello world".toList).2.2 (by decide)⟩

/-- The hand text whose first raises line does not match the raises-A-to-B
pattern and has no earlier well-formed raise. -/
def nameErrorText : String :=
  "Poker Hand #NE1\nSeat 1: Hero ($5.00 in chips)\nHero: raises to $0.20\n"

/-- The roster the parser builds for that text. -/
def nameErrorPlayers : List PlayerState :=
  [{ name := "Hero", seat := 1, stack := 5, position := "Button", is_hero := true }]

set_option maxRecDepth 8192 in
unseal Rat.add Rat.mul Rat.sub Rat.inv Rat.ofScientific in
/-- C10: a hand text whose raises line lacks the raises-A-to-B shape, with
no earlier well-formed raise, reaches the raise branch with the total_raise
local unbound; action extraction raises NameError (the description
formatting references the local outside the regex-match guard), and
parse_hand_for_replay catches it and drops the whole hand. -/
theorem c10_nameerror_drops_hand :
    extract_players nameErrorText.toList (extract_button_seat nameErrorText.toList)
      = .ok nameErrorPlayers ∧
    extract_all_actions nameErrorText.toList nameErrorPlayers
      = .error "NameError: total_raise is not defined" ∧
    parse_hand_for_replay nameErrorText = none :=
  ⟨by decide, by decide, by decide⟩

/-! ## Street monotonicity (for C8) -/

/-- The claim's street order: preflop before flop before turn before river
before showdown. -/
def streetRank : String → Nat
  | "flop" => 1
  | "turn" => 2
  | "river" => 3
  | "showdown" => 4
  | _ => 0

/-- The rank of the street a marker switches to. -/
def markerRank : MarkerKind → Nat
  | .flop => 1
  | .turn => 2
  | .river => 3
  | .showdown => 4

/-- The street string a marker switches to. -/
def streetName : MarkerKind → String
  | .flop => "flop"
  | .turn => "turn"
  | .river => "river"
  | .showdown => "showdown"

/-- The street markers of the given lines (each stripped, classified in the
loop's branch order, stopping at the summary marker) occur with
non-decreasing rank starting from the given rank. -/
def markersOrderedFrom (rank : Nat) : List Line → Bool
  | [] => true
  | l :: ls =>
    match lineMarker (pyStrip l) with
    | some mk => decide (rank ≤ markerRank mk) && markersOrderedFrom (markerRank mk) ls
    | none =>
      if isSummaryLine (pyStrip l) then true
      else markersOrderedFrom rank ls

/-- The loop-state street invariant: every emitted action's street rank is
bounded by the current street's rank, and the emitted streets are pairwise
non-decreasing. -/
def StreetInv (s : ActState) : Prop :=
  (∀ a ∈ s.actions, streetRank a.street ≤ streetRank s.current_street) ∧
  List.Pairwise (fun a b => streetRank a.street ≤ streetRank b.street) s.actions

/-- emit leaves the current street unchanged and appends an action tagged
with it, so the street invariant is preserved. -/
theorem streetInv_emit (s : ActState) (pname : String) (seat : Nat) (atype : String)
    (amount : ℚ) (bets : String → ℚ) (pot : ℚ) (tr : Option ℚ) (desc : String)
    (hInv : StreetInv s) :
    StreetInv (emit s pname seat atype amount bets pot tr desc) := by
  constructor
  · intro a ha
    rcases List.mem_append.mp ha with ha | ha
    · exact hInv.1 a ha
    · rcases List.mem_singleton.mp ha with rfl
      exact le_rfl
  · rw [show (emit s pname seat atype amount bets pot tr desc).actions
        = s.actions ++ [_] from rfl]
    refine (List.pairwise_append).mpr ⟨hInv.2, List.pairwise_singleton _ _, ?_⟩
    intro a ha b hb
    rcases List.mem_singleton.mp hb with rfl
    exact hInv.1 a ha

theorem applyActionText_streetInv (p : PlayerState) (pname : String) (s : ActState)
    (atext : Line) (out : StepOut) (hInv : StreetInv s)
    (h : applyActionText p pname s atext = .ok out) :
    StreetInv (outState out) ∧ (outState out).current_street = s.current_street := by
  unfold applyActionText at h
  split at h
  · split at h
    · split at h
      · exact absurd h (by simp)
      · cases h
        exact ⟨streetInv_emit _ _ _ _ _ _ _ _ _ hInv, rfl⟩
    · cases h
      exact ⟨streetInv_emit _ _ _ _ _ _ _ _ _ hInv, rfl⟩
  · split at h
    · split at h
      · split at h
        · exact absurd h (by simp)
        · cases h
          exact ⟨streetInv_emit _ _ _ _ _ _ _ _ _ hInv, rfl⟩
      · cases h
        exact ⟨streetInv_emit _ _ _ _ _ _ _ _ _ hInv, rfl⟩
    · split at h
      · cases h
        exact ⟨streetInv_emit _ _ _ _ _ _ _ _ _ hInv, rfl⟩
      · split at h
        · split at h
          · split at h
            · exact absurd h (by simp)
            · cases h
              exact ⟨streetInv_emit _ _ _ _ _ _ _ _ _ hInv, rfl⟩
          · cases h
            exact ⟨streetInv_emit _ _ _ _ _ _ _ _ _ hInv, rfl⟩
        · split at h
          · split at h
            · split at h
              · exact absurd h (by simp)
              · split at h
                · exact absurd h (by simp)
                · cases h
                  exact ⟨streetInv_emit _ _ _ _ _ _ _ _ _ hInv, rfl⟩
            · split at h
              · cases h
                exact ⟨streetInv_emit _ _ _ _ _ _ _ _ _ hInv, rfl⟩
              · exact absurd h (by simp)
          · split at h
            · split at h
              · split at h
                · exact absurd h (by simp)
                · cases h
                  exact ⟨streetInv_emit _ _ _ _ _ _ _ _ _ hInv, rfl⟩
              · cases h
                exact ⟨streetInv_emit _ _ _ _ _ _ _ _ _ hInv, rfl⟩
            · split at h
              · cases h
                exact ⟨streetInv_emit _ _ _ _ _ _ _ _ _ hInv, rfl⟩
              · split at h
                · split at h
                  · split at h
                    · exact absurd h (by simp)
                    · cases h
                      exact ⟨streetInv_emit _ _ _ _ _ _ _ _ _ hInv, rfl⟩
                  · cases h
                    exact ⟨streetInv_emit _ _ _ _ _ _ _ _ _ hInv, rfl⟩
                · cases h
                  exact ⟨hInv, rfl⟩

theorem processLine_streetInv (players : List PlayerState) (s : ActState) (l : Line)
    (out : StepOut) (hInv : StreetInv s)
    (hm : ∀ mk, lineMarker (pyStrip l) = some mk →
      streetRank s.current_street ≤ markerRank mk)
    (h : processLine players s l = .ok out) :
    StreetInv (outState out) ∧
      ((outState out).current_street =
        match lineMarker (pyStrip l) with
        | some mk => streetName mk
        | none => s.current_street) := by
  unfold processLine processStripped at h
  split at h
  · cases h
    have hempty : pyStrip l = [] := by
      rename_i hl
      exact List.isEmpty_iff.mp hl
    rw [hempty]
    exact ⟨hInv, rfl⟩
  · split at h
    · -- flop marker
      rename_i heq
      cases h
      rw [heq]
      refine ⟨⟨?_, hInv.2⟩, rfl⟩
      intro a ha
      exact le_trans (hInv.1 a ha) (hm _ heq)
    · rename_i heq
      cases h
      rw [heq]
      refine ⟨⟨?_, hInv.2⟩, rfl⟩
      intro a ha
      exact le_trans (hInv.1 a ha) (hm _ heq)
    · rename_i heq
      cases h
      rw [heq]
      refine ⟨⟨?_, hInv.2⟩, rfl⟩
      intro a ha
      exact le_trans (hInv.1 a ha) (hm _ heq)
    · rename_i heq
      cases h
      rw [heq]
      refine ⟨⟨?_, hInv.2⟩, rfl⟩
      intro a ha
      exact le_trans (hInv.1 a ha) (hm _ heq)
    · rename_i heq
      rw [heq]
      split at h
      · cases h
        exact ⟨hInv, rfl⟩
      · split at h
        · split at h
          · cases h
            exact ⟨hInv, rfl⟩
          · exact applyActionText_streetInv _ _ _ _ _ hInv h
        · split at h
          · split at h
            · cases h
              exact ⟨hInv, rfl⟩
            · split at h
              · exact absurd h (by simp)
              · split at h
                · cases h
                  exact ⟨hInv, rfl⟩
                · cases h
                  refine ⟨⟨?_, ?_⟩, rfl⟩
                  · intro a ha
                    rcases List.mem_append.mp ha with ha | ha
                    · exact hInv.1 a ha
                    · rcases List.mem_singleton.mp ha with rfl
                      exact le_rfl
                  · refine (List.pairwise_append).mpr
                      ⟨hInv.2, List.pairwise_singleton _ _, ?_⟩
                    intro a ha b hb
                    rcases List.mem_singleton.mp hb with rfl
                    exact hInv.1 a ha
          · cases h
            exact ⟨hInv, rfl⟩

theorem processLines_streetInv (players : List PlayerState) :
    ∀ (ls : List Line) (s s1 : ActState), StreetInv s →
    markersOrderedFrom (streetRank s.current_street) ls = true →
    processLines players s ls = .ok s1 →
    List.Pairwise (fun a b => streetRank a.street ≤ streetRank b.street) s1.actions := by
  intro ls
  induction ls with
  | nil =>
    intro s s1 hInv _ h
    cases h
    exact hInv.2
  | cons l ls ih =>
    intro s s1 hInv hord h
    unfold markersOrderedFrom at hord
    unfold processLines at h
    have hmk : ∀ mk, lineMarker (pyStrip l) = some mk →
        streetRank s.current_street ≤ markerRank mk := by
      intro mk hmk1
      simp only [hmk1, Bool.and_eq_true, decide_eq_true_eq] at hord
      exact hord.1
    split at h
    · exact absurd h (by simp)
    · rename_i s2 heq
      cases h
      exact (processLine_streetInv players s l _ hInv hmk heq).1.2
    · rename_i s2 heq
      have hstep := processLine_streetInv players s l _ hInv hmk heq
      apply ih s2 s1 hstep.1
      · cases hmarker : lineMarker (pyStrip l) with
        | some mk =>
          simp only [hmarker, Bool.and_eq_true, decide_eq_true_eq] at hord hstep
          have hrank : streetRank s2.current_street = markerRank mk := by
            have h2 := hstep.2
            dsimp only [outState] at h2
            rw [h2]
            cases mk <;> rfl
          rw [hrank]
          exact hord.2
        | none =>
          simp only [hmarker] at hord hstep
          have hsame : s2.current_street = s.current_street := hstep.2
          rw [hsame]
          by_cases hsum : isSummaryLine (pyStrip l) = true
          · exfalso
            unfold processLine processStripped at heq
            split at heq
            · rename_i hempt
              rw [List.isEmpty_iff.mp hempt] at hsum
              exact absurd hsum (by decide)
            · simp only [hmarker, hsum] at heq
              exact absurd heq (by simp)
          · rw [if_neg hsum] at hord
            exact hord
      · exact h

theorem extract_all_actions_street (cs : Line) (players : List PlayerState)
    (acts : List ActionStep)
    (hord : markersOrderedFrom (streetRank "preflop") (splitLines cs) = true)
    (h : extract_all_actions cs players = .ok acts) :
    List.Pairwise (fun a b => streetRank a.street ≤ streetRank b.street) acts := by
  unfold extract_all_actions at h
  cases heq : processLines players (initActState players) (splitLines cs) with
  | error e =>
    rw [heq] at h
    exact absurd h (by simp [Except.map])
  | ok s1 =>
    rw [heq] at h
    simp only [Except.map, Except.ok.injEq] at h
    subst h
    refine processLines_streetInv players _ _ _ ⟨?_, ?_⟩ hord heq
    · intro a ha
      simp [initActState] at ha
    · exact List.Pairwise.nil

/-- The hand text whose street markers appear out of order: a river section
before a flop section. -/
def outOfOrderText : String :=
  "Poker Hand #C8X\nSeat 1: Bob ($5.00 in chips)\n*** RIVER ***\nBob: checks\n*** FLOP ***\nBob: checks\n"

set_option maxRecDepth 8192 in
unseal Rat.add Rat.mul Rat.sub Rat.inv Rat.ofScientific in
/-- C8 counterexample: this text parses to a hand whose emitted streets are
river followed by flop, which is decreasing in the claimed street order. -/
theorem c8_counterexample :
    (parse_hand_for_replay outOfOrderText).map (fun h => h.actions.map ActionStep.street)
      = some ["river", "flop"] ∧
    ¬ streetRank "river" ≤ streetRank "flop" :=
  ⟨by decide, by decide⟩

/-- C8 (amended): when the street-section markers of the input occur in
non-decreasing street order — as they do in every well-formed hand
history — the street tags of the emitted action sequence are monotonically
non-decreasing in the order preflop, flop, turn, river, showdown.  For
arbitrary text the unamended claim fails, because the engine adopts each
marker's street unconditionally (see the counterexample). -/
theorem c8_street_monotone (t : String) (h : HandReplay)
    (hord : markersOrderedFrom (streetRank "preflop") (splitLines t.toList) = true)
    (hp : parse_hand_for_replay t = some h) :
    List.Pairwise (fun a b => streetRank a.street ≤ streetRank b.street) h.actions := by
  have heq := parse_eq_parseE t h hp
  unfold parseE at heq
  split at heq
  · exact absurd heq (by simp)
  · split at heq
    · exact absurd heq (by simp)
    · split at heq
      · exact absurd heq (by simp)
      · rename_i actions hacts
        split at heq
        · exact absurd heq (by simp)
        · simp only [Except.ok.injEq] at heq
          subst heq
          exact extract_all_actions_street _ _ _ hord hacts

set_option maxRecDepth 8192 in
unseal Rat.add Rat.mul Rat.sub Rat.inv Rat.ofScientific in
/-- Witness for C8 at the sample hand, whose markers are in order. -/
theorem c8_witness :
    List.Pairwise (fun a b => streetRank a.street ≤ streetRank b.street)
      sampleHand.actions :=
  c8_street_monotone sampleHandText sampleHand (by decide) (by decide)

/-! ## Position labelling (for C1) -/

theorem rosterLoop_positions (button : Nat) :
    ∀ (lines : List Line) (acc ps : List PlayerState),
    rosterLoop button acc lines = .ok ps →
    (∀ i p, acc[i]? = some p → p.position = calculate_position p.seat button (i + 1)) →
    (∀ i p, ps[i]? = some p → p.position = calculate_position p.seat button (i + 1)) := by
  intro lines
  induction lines with
  | nil =>
    intro acc ps h hacc
    cases h
    exact hacc
  | cons l ls ih =>
    intro acc ps h hacc
    unfold rosterLoop at h
    split at h
    · split at h
      · exact ih acc ps h hacc
      · split at h
        · exact absurd h (by simp)
        · refine ih _ ps h ?_
          intro i p hp
          rcases lt_trichotomy i acc.length with hi | hi | hi
          · rw [List.getElem?_append_left hi] at hp
            exact hacc i p hp
          · subst hi
            rw [List.getElem?_concat_length] at hp
            cases hp
            rfl
          · rw [List.getElem?_eq_none (by simp; omega)] at hp
            exact absurd hp (by simp)
    · exact ih acc ps h hacc

theorem setCards_fields (ps : List PlayerState) (pname : String) (cards : Line) :
    ∀ i : Nat, ((setCards ps pname cards)[i]?).map (fun p => (p.seat, p.position))
      = (ps[i]?).map (fun p => (p.seat, p.position)) := by
  induction ps with
  | nil => intro i; rfl
  | cons p ps ih =>
    intro i
    unfold setCards
    split
    · cases i with
      | zero =>
        simp only [List.getElem?_cons_zero, Option.map_some]
        split <;> rfl
      | succ j => simp only [List.getElem?_cons_succ]
    · cases i with
      | zero => simp only [List.getElem?_cons_zero]
      | succ j =>
        simp only [List.getElem?_cons_succ]
        exact ih j

theorem attachHoleCards_fields :
    ∀ (lines : List Line) (ps : List PlayerState) (b : Bool) (i : Nat),
    ((attachHoleCards ps b lines)[i]?).map (fun p => (p.seat, p.position))
      = (ps[i]?).map (fun p => (p.seat, p.position)) := by
  intro lines
  induction lines with
  | nil => intro ps b i; rfl
  | cons l ls ih =>
    intro ps b i
    unfold attachHoleCards
    split
    · exact ih ps true i
    · split
      · rfl
      · split
        · split
          · exact ih ps b i
          · rw [ih _ b i]
            exact setCards_fields ps _ _ i
        · exact ih ps b i

theorem extract_players_positions (cs : Line) (button : Nat) (ps : List PlayerState)
    (h : extract_players cs button = .ok ps) :
    ∀ i p, ps[i]? = some p → p.position = calculate_position p.seat button (i + 1) := by
  unfold extract_players at h
  split at h
  · exact absurd h (by simp)
  · rename_i ps0 hroster
    simp only [Except.ok.injEq] at h
    subst h
    intro i p hp
    have hfield := attachHoleCards_fields (splitLines cs) ps0 false i
    rw [hp] at hfield
    rcases Option.map_eq_some'.mp hfield.symm with ⟨q, hq, hq2⟩
    have hbase := rosterLoop_positions button (splitLines cs) [] ps0 hroster
      (by intro j r hr; simp at hr) i q hq
    have hseat : q.seat = p.seat := congrArg Prod.fst hq2
    have hpos : q.position = p.position := congrArg Prod.snd hq2
    rw [← hpos, ← hseat]
    exact hbase

/-- C1 counterexample: a six-player hand with the button at seat three.
The claim's formula — the six-entry label list indexed by the seat offset
mod the hand's player count — gives Hijack for seat one and Cutoff for
seat two, but the parsed hand labels them Button and Small Blind (the code
indexes by the running count of players parsed so far).  The claim's own
button example (seat three Button, seat four Small Blind) is visible in
the parsed list. -/
def sixSeatText : String :=
  "Poker Hand #C1X\nSeat #3 is the button\nSeat 1: A1 ($1.00 in chips)\nSeat 2: A2 ($1.00 in chips)\nSeat 3: A3 ($1.00 in chips)\nSeat 4: A4 ($1.00 in chips)\nSeat 5: A5 ($1.00 in chips)\nSeat 6: A6 ($1.00 in chips)\n"

set_option maxRecDepth 8192 in
unseal Rat.add Rat.mul Rat.sub Rat.inv Rat.ofScientific in
/-- C1 counterexample: the parsed six-seat hand contradicts the claimed
position formula at seats one and two. -/
theorem c1_counterexample :
    (parse_hand_for_replay sixSeatText).map
        (fun h => h.players.map (fun p => (p.seat, p.position)))
      = some [(1, "Button"), (2, "Small Blind"), (3, "Button"), (4, "Small Blind"),
              (5, "Big Blind"), (6, "UTG")] ∧
    specPosition 6 1 3 = "Hijack" ∧ specPosition 6 2 3 = "Cutoff" :=
  ⟨by decide, by decide, by decide⟩

/-- C1 (amended): each parsed player's position label is computed by
calculate_position with the running count of players parsed so far — the
label list is selected by and the offset is taken modulo the player's
one-based index in seat-line order — not the hand's final player count.
The final player's label agrees with the claim's formula, and the claim's
six-seat button-at-three example labels (seat three Button, seat four
Small Blind) still hold (see the counterexample's parsed list). -/
theorem c1_position_running_count (t : String) (h : HandReplay)
    (hp : parse_hand_for_replay t = some h) :
    ∀ i p, h.players[i]? = some p →
      p.position = calculate_position p.seat h.button_seat (i + 1) := by
  have heq := parse_eq_parseE t h hp
  unfold parseE at heq
  split at heq
  · exact absurd heq (by simp)
  · split at heq
    · exact absurd heq (by simp)
    · rename_i players hplayers
      split at heq
      · exact absurd heq (by simp)
      · split at heq
        · exact absurd heq (by simp)
        · simp only [Except.ok.injEq] at heq
          subst heq
          exact extract_players_positions _ _ _ hplayers

/-- The first player of the sample hand. -/
def sampleFirstPlayer : PlayerState := sampleHand.players.getD 0 default

set_option maxRecDepth 8192 in
unseal Rat.add Rat.mul Rat.sub Rat.inv Rat.ofScientific in
/-- Witness for C1 (amended) at the sample hand's first player. -/
theorem c1_witness :
    sampleFirstPlayer.position
      = calculate_position sampleFirstPlayer.seat sampleHand.button_seat 1 :=
  c1_position_running_count sampleHandText sampleHand (by decide) 0
    sampleFirstPlayer (by decide)

end Cardsharpner
